import Mathlib

/-!
Verification of the task/project management service
(`src/app/api/routes.py` and the service layer it delegates to).

The only source file present is `app/api/routes.py`, which defines the
error-to-HTTP translation `to_http` and the route handlers.  The domain
exceptions, repositories and service classes it imports are part of this
repository but are not under `src/`; those parts are modelled from the
spec, as indicated by the doc comments below.
-/

namespace PMS

/-- Exception taxonomy.  The hierarchy itself lives in
`app.domain.exceptions` which is not under `src/`.
Modelled from the spec: `NotFoundError`, `ValidationError` and
`InvalidStatusTransition` are all catchable as a common `DomainError`
(spec section 9: "all catchable as a common DomainError"); `ValueError`
is the Python builtin, outside the domain taxonomy; `otherError` stands
for any exception outside both.  Each constructor carries `str(e)`. -/
inductive Exc where
  | notFoundError (msg : String)
  | validationError (msg : String)
  | invalidStatusTransition (msg : String)
  | domainError (msg : String)
  | valueError (msg : String)
  | otherError (msg : String)
deriving DecidableEq, Repr

/-- Python `str(e)` of an exception. -/
def Exc.msg : Exc → String
  | .notFoundError m => m
  | .validationError m => m
  | .invalidStatusTransition m => m
  | .domainError m => m
  | .valueError m => m
  | .otherError m => m

/-- Test `isinstance(e, NotFoundError)` (a subclass of `DomainError` only). -/
def Exc.isNotFoundError : Exc → Bool
  | .notFoundError _ => true
  | _ => false

/-- Test `isinstance(e, (InvalidStatusTransition, ValidationError, ValueError))`,
the tuple test on line 24 of `routes.py`. -/
def Exc.isClientTuple : Exc → Bool
  | .invalidStatusTransition _ => true
  | .validationError _ => true
  | .valueError _ => true
  | _ => false

/-- Test `isinstance(e, DomainError)`: the three typed errors and the generic
`DomainError` all satisfy it; `ValueError` and other exceptions do not. -/
def Exc.isDomainError : Exc → Bool
  | .notFoundError _ => true
  | .validationError _ => true
  | .invalidStatusTransition _ => true
  | .domainError _ => true
  | _ => false

/-- The `HTTPException(status_code=..., details=...)` value constructed by
`to_http` (field names follow the keywords in the source). -/
structure HTTPExc where
  status_code : Nat
  details : String
deriving DecidableEq, Repr

/-- Function `to_http` from `src/app/api/routes.py` lines 21-27, branch for
branch.
Python falls off the end of the function (returning `None`) when the
exception matches none of the three `isinstance` tests, hence the
`Option` result with `none` for that path. -/
def to_http (e : Exc) : Option HTTPExc :=
  if e.isNotFoundError then some ⟨404, e.msg⟩
  else if e.isClientTuple then some ⟨400, e.msg⟩
  else if e.isDomainError then some ⟨500, "Internal Server Error"⟩
  else none

/-- Modelled from the spec: task status enum
`{Open, InProgress, Done, Cancelled}` (spec section 4.4; the enum lives in
the domain model, which is not under `src/`). -/
inductive Status where
  | Open
  | InProgress
  | Done
  | Cancelled
deriving DecidableEq, Repr

/-- Modelled from the spec: the legal-transition table of section 4.4.
Legal transitions: Open→InProgress, Open→Cancelled, InProgress→Done,
InProgress→Cancelled; everything else (self-transitions included) is
illegal. -/
def canTransition : Status → Status → Bool
  | .Open, .InProgress => true
  | .Open, .Cancelled => true
  | .InProgress, .Done => true
  | .InProgress, .Cancelled => true
  | _, _ => false

/-- Modelled from the spec: Done and Cancelled are the terminal states
(spec section 4.4: "Terminal: Done, Cancelled (no outgoing
transitions)"). -/
def Status.isTerminal : Status → Bool
  | .Done => true
  | .Cancelled => true
  | _ => false

/-- Modelled from the spec: the typed domain errors raised by the
services (`app.domain.exceptions` is not under `src/`).
`invalidTransition` carries the current and the requested state, as the
spec requires ("identifying current and requested state in the
error"). -/
inductive DomainErr where
  | notFound (msg : String)
  | validation (msg : String)
  | invalidTransition (cur req : Status)
deriving DecidableEq, Repr

/-- Modelled from the spec: a Project entity (section 3): unique id
(modelled as a Nat drawn from the store's id counter) and a name. -/
structure Project where
  id : Nat
  name : String
deriving DecidableEq, Repr

/-- Modelled from the spec: a Task entity (section 3): unique id,
foreign `project_id`, `title`, `task_type`, optional `due_date`
(modelled as a Nat day number) and `status`. -/
structure Task where
  id : Nat
  project_id : Nat
  title : String
  task_type : String
  due_date : Option Nat
  status : Status
deriving DecidableEq, Repr

/-- Modelled from the spec: the in-memory keyed store behind the
repositories (`app.repositories.memory` is not under `src/`).  Entities
are kept in insertion order; `nextProjectId`/`nextTaskId` model the
repository's generation of unique keys at insertion (spec section 4.1:
"Keys are unique strings generated by the Repository ... at
insertion"). -/
structure Store where
  projects : List Project
  tasks : List Task
  nextProjectId : Nat
  nextTaskId : Nat
deriving DecidableEq, Repr

/-- The empty store. -/
def Store.empty : Store := ⟨[], [], 0, 0⟩

/-- Does a project with this id exist? -/
def Store.hasProject (σ : Store) (pid : Nat) : Bool :=
  σ.projects.any (fun p => p.id == pid)

/-- Look a task up by id (first match in insertion order). -/
def Store.findTask (σ : Store) (tid : Nat) : Option Task :=
  σ.tasks.find? (fun t => t.id == tid)

/-- Modelled from the spec: a string field is rejected when it is
"empty/whitespace-only" (spec section 4.2), equivalently empty after
trimming (section 3): every character is whitespace. -/
def isBlank (s : String) : Bool :=
  s.data.all Char.isWhitespace

/-- Modelled from the spec: `ProjectService.create(name)`
(`app.services.project_service` is not under `src/`): fails with
ValidationError if `name` is empty or whitespace-only, otherwise
generates a unique id and inserts the project. -/
def project_create (σ : Store) (name : String) :
    Except DomainErr (Project × Store) :=
  if isBlank name then .error (.validation "name must be non-empty")
  else
    let p : Project := ⟨σ.nextProjectId, name⟩
    .ok (p, { σ with projects := σ.projects ++ [p],
                     nextProjectId := σ.nextProjectId + 1 })

/-- Modelled from the spec: `TaskService.create_task`
(`app.services.task_service` is not under `src/`): fails with
NotFoundError if `project_id` does not resolve (checked first, before
any field validation); fails with ValidationError if `title` is empty
after trimming or `task_type` is not in the recognized set `R` (the
spec fixes only that the set of recognized kinds is fixed; it is passed
as a parameter here); otherwise inserts a new task with a fresh id and
initial status Open. -/
def create_task (R : List String) (σ : Store) (pid : Nat)
    (title task_type : String) (due_date : Option Nat) :
    Except DomainErr (Task × Store) :=
  if ¬ σ.hasProject pid then .error (.notFound "project not found")
  else if isBlank title then .error (.validation "title must be non-empty")
  else if ¬ R.contains task_type then .error (.validation "unknown task type")
  else
    let t : Task := ⟨σ.nextTaskId, pid, title, task_type, due_date, .Open⟩
    .ok (t, { σ with tasks := σ.tasks ++ [t],
                     nextTaskId := σ.nextTaskId + 1 })

/-- Modelled from the spec: `TaskService.list_tasks`: fails with
NotFoundError if the project does not exist, otherwise returns all
tasks whose `project_id` matches, in insertion order. -/
def list_tasks (σ : Store) (pid : Nat) : Except DomainErr (List Task) :=
  if ¬ σ.hasProject pid then .error (.notFound "project not found")
  else .ok (σ.tasks.filter (fun t => t.project_id == pid))

/-- Modelled from the spec: `TaskService.delete_task`: fails with
NotFoundError if the task id is unknown, otherwise removes the task
permanently (hard removal). -/
def delete_task (σ : Store) (tid : Nat) : Except DomainErr Store :=
  match σ.findTask tid with
  | none => .error (.notFound "task not found")
  | some _ => .ok { σ with tasks := σ.tasks.filter (fun t => !(t.id == tid)) }

/-- Apply a partial update patch to a task: each absent (`none`) field
is left unchanged, each provided field is applied. -/
def applyPatch (t : Task) (title? : Option String) (due? : Option Nat)
    (status? : Option Status) : Task :=
  { t with title := title?.getD t.title,
           due_date := (due?.map some).getD t.due_date,
           status := status?.getD t.status }

/-- Modelled from the spec: `TaskService.update_task`: fails with
NotFoundError if the task id is unknown; each provided field is
validated independently (empty trimmed `title` → ValidationError,
illegal status transition per the section 4.4 state machine →
InvalidStatusTransition carrying current and requested state); absent
fields are left unchanged; returns the fully updated task and the
store with the task replaced in place. -/
def update_task (σ : Store) (tid : Nat) (title? : Option String)
    (due? : Option Nat) (status? : Option Status) :
    Except DomainErr (Task × Store) :=
  match σ.findTask tid with
  | none => .error (.notFound "task not found")
  | some t =>
    if (title?.map isBlank).getD false then
      .error (.validation "title must be non-empty")
    else if (status?.map (fun s => !canTransition t.status s)).getD false
    then
      .error (.invalidTransition t.status (status?.getD t.status))
    else
      let t' := applyPatch t title? due? status?
      .ok (t', { σ with
                 tasks := σ.tasks.map (fun u => if u.id == tid then t' else u) })

/-- A service operation, as invocable through the API layer.  Read
operations (`listProjects`, `getProject`, `listTasks`) are included for
completeness; they never mutate the store. -/
inductive Op where
  | createProject (name : String)
  | listProjects
  | getProject (pid : Nat)
  | createTask (pid : Nat) (title task_type : String) (due_date : Option Nat)
  | listTasks (pid : Nat)
  | updateTask (tid : Nat) (title? : Option String) (due? : Option Nat)
      (status? : Option Status)
  | deleteTask (tid : Nat)
deriving DecidableEq, Repr

/-- The store after one service operation: a successful write installs
the new store, a failed operation (a raised typed error) and a read
leave the store unchanged. -/
def applyOp (R : List String) (σ : Store) : Op → Store
  | .createProject name =>
    match project_create σ name with
    | .ok (_, σ') => σ'
    | .error _ => σ
  | .listProjects => σ
  | .getProject _ => σ
  | .createTask pid title ty due =>
    match create_task R σ pid title ty due with
    | .ok (_, σ') => σ'
    | .error _ => σ
  | .listTasks _ => σ
  | .updateTask tid title? due? status? =>
    match update_task σ tid title? due? status? with
    | .ok (_, σ') => σ'
    | .error _ => σ
  | .deleteTask tid =>
    match delete_task σ tid with
    | .ok σ' => σ'
    | .error _ => σ

/-- The store after a sequence of service operations. -/
def runOps (R : List String) (σ : Store) (ops : List Op) : Store :=
  ops.foldl (applyOp R) σ

/-- Store well-formedness, maintained by the repository: every stored
task id was generated below the id counter, and task ids are
pairwise distinct ("unique string" keys, spec section 3/4.1). -/
def Store.WF (σ : Store) : Prop :=
  (∀ t ∈ σ.tasks, t.id < σ.nextTaskId) ∧ (σ.tasks.map Task.id).Nodup

/-- Stability statement used for the temporal claim: the store is
well-formed, the task id `i` was generated in the past (it is below the
id counter), and every stored task carrying id `i` has status `v`. -/
def TStable (i : Nat) (v : Status) (σ : Store) : Prop :=
  σ.WF ∧ i < σ.nextTaskId ∧ ∀ u ∈ σ.tasks, u.id = i → u.status = v

/-- A sample task used to instantiate theorems on concrete input. -/
def demoTask : Task := ⟨0, 0, "Write spec", "doc", some 7, .Open⟩

/-- A sample store: one project, one open task. -/
def demoStore : Store := ⟨[⟨0, "Launch"⟩], [demoTask], 1, 1⟩

/-- A sample store whose only task is already Done. -/
def demoStoreDone : Store :=
  ⟨[⟨0, "Launch"⟩], [{ demoTask with status := .Done }], 1, 1⟩

/-! ## Claim theorems: the error-to-HTTP translation -/

/-- C1: `to_http` sends every exception of the domain taxonomy to the
class the spec assigns: a NotFoundError to the "not found" class (404),
a ValidationError or InvalidStatusTransition to the "client error"
class (400), and any other domain error to the "server error" class
(500) carrying only the generic message `Internal Server Error`,
independent of the exception's own message. -/
theorem C1_to_http_taxonomy_classes (m : String) :
    to_http (.notFoundError m) = some ⟨404, m⟩ ∧
    to_http (.validationError m) = some ⟨400, m⟩ ∧
    to_http (.invalidStatusTransition m) = some ⟨400, m⟩ ∧
    to_http (.domainError m) = some ⟨500, "Internal Server Error"⟩ :=
  ⟨rfl, rfl, rfl, rfl⟩

/-- C2: evaluated at an exception outside the taxonomy (any exception
that is neither a DomainError nor a ValueError), `to_http` matches none
of its three `isinstance` branches and falls off the end of the
function, returning Python `None` instead of a generic server-fault
response; the handler's `raise to_http(e)` then raises `None` rather
than an HTTP response. -/
theorem C2_unrecognized_exception_not_translated :
    to_http (.otherError "boom") = none := rfl

/-- C10: a plain ValueError is outside the domain taxonomy
(`isinstance(e, DomainError)` is false), yet line 24 of `routes.py`
classifies it with the client errors: `to_http` returns a 400
response carrying the exception's message, not a server-side fault. -/
theorem C10_valueerror_is_client_error (m : String) :
    Exc.isDomainError (.valueError m) = false ∧
    to_http (.valueError m) = some ⟨400, m⟩ :=
  ⟨rfl, rfl⟩

/-! ## Claim theorems: task creation -/

/-- C5: every successful `create_task` call returns a task whose status
is Open, and that same task is stored. -/
theorem C5_created_task_is_open (R : List String) (σ : Store) (pid : Nat)
    (title ty : String) (due : Option Nat) (t : Task) (σ' : Store)
    (h : create_task R σ pid title ty due = .ok (t, σ')) :
    t.status = .Open ∧ t ∈ σ'.tasks := by
  unfold create_task at h
  split at h
  · cases h
  · split at h
    · cases h
    · split at h
      · cases h
      · simp only [Except.ok.injEq, Prod.mk.injEq] at h
        obtain ⟨rfl, rfl⟩ := h
        exact ⟨rfl, by simp⟩

/-- C5 witness: a concrete successful creation in the sample store. -/
theorem C5_created_task_is_open_witness :
    Task.status ⟨1, 0, "Review", "doc", none, .Open⟩ = .Open ∧
    Task.mk 1 0 "Review" "doc" none .Open ∈
      (Store.mk [⟨0, "Launch"⟩] [demoTask, ⟨1, 0, "Review", "doc", none, .Open⟩] 1 2).tasks :=
  C5_created_task_is_open ["doc"] demoStore 0 "Review" "doc" none _ _ (by rfl)

/-- C6: with an unknown `project_id`, `create_task` fails with
NotFoundError for every title, task type and due date — the
missing-project check dominates field validation — and the store is
left unchanged by the failed operation. -/
theorem C6_unknown_project_dominates (R : List String) (σ : Store)
    (pid : Nat) (title ty : String) (due : Option Nat)
    (h : σ.hasProject pid = false) :
    create_task R σ pid title ty due = .error (.notFound "project not found") ∧
    applyOp R σ (.createTask pid title ty due) = σ := by
  have h1 : create_task R σ pid title ty due =
      .error (.notFound "project not found") := by
    unfold create_task
    simp [h]
  refine ⟨h1, ?_⟩
  simp only [applyOp, h1]

/-- C6 witness: creating a task under the absent project 5 of the
sample store fails with NotFoundError even though every field is
valid, and leaves the store untouched. -/
theorem C6_unknown_project_dominates_witness :
    create_task ["doc"] demoStore 5 "Review" "doc" none =
      .error (.notFound "project not found") ∧
    applyOp ["doc"] demoStore (.createTask 5 "Review" "doc" none) = demoStore :=
  C6_unknown_project_dominates ["doc"] demoStore 5 "Review" "doc" none (by decide)

/-! ## Helper lemmas -/

/-- The transition predicate holds exactly on the four legal edges of
the section 4.4 state machine. -/
theorem canTransition_iff (a b : Status) :
    canTransition a b = true ↔
      ((a = .Open ∧ b = .InProgress) ∨ (a = .Open ∧ b = .Cancelled) ∨
       (a = .InProgress ∧ b = .Done) ∨ (a = .InProgress ∧ b = .Cancelled)) := by
  cases a <;> cases b <;> decide

/-- A terminal status has no outgoing legal transition. -/
theorem terminal_no_transition (v : Status) (hv : v.isTerminal = true)
    (s : Status) : canTransition v s = false := by
  cases v <;> cases s <;> first | rfl | cases hv

/-- Replacing, in a list of tasks, every task matching a predicate by a
task `t'` that also matches it makes `t'` the first hit of a search,
provided the search used to hit some task `t`. -/
theorem find?_replace (pr : Task → Bool) (l : List Task) (t t' : Task)
    (hfind : l.find? pr = some t)
    (ht' : pr t' = true) :
    (l.map (fun u => if pr u then t' else u)).find? pr = some t' := by
  induction l with
  | nil => cases hfind
  | cons a as ih =>
    by_cases ha : pr a = true
    · rw [List.map_cons, if_pos ha]
      exact List.find?_cons_of_pos _ ht'
    · rw [List.find?_cons_of_neg _ ha] at hfind
      rw [List.map_cons, if_neg ha, List.find?_cons_of_neg _ ha]
      exact ih hfind

/-! ## Claim theorems: status transitions on update -/

/-- C3: with a status change requested (and no other field), an
update of an existing task succeeds exactly when the requested
transition is one of the four legal edges Open→InProgress,
Open→Cancelled, InProgress→Done, InProgress→Cancelled; every other
request (self-transitions and moves out of Done or Cancelled included)
fails with an InvalidStatusTransition identifying both the current and
the requested state. -/
theorem C3_update_status_transitions (σ : Store) (tid : Nat) (t : Task)
    (s' : Status) (hf : σ.findTask tid = some t) :
    (canTransition t.status s' = true ↔
      ((t.status = .Open ∧ s' = .InProgress) ∨
       (t.status = .Open ∧ s' = .Cancelled) ∨
       (t.status = .InProgress ∧ s' = .Done) ∨
       (t.status = .InProgress ∧ s' = .Cancelled))) ∧
    (canTransition t.status s' = true →
      ∃ t'' σ'', update_task σ tid none none (some s') = .ok (t'', σ'') ∧
        t''.status = s' ∧ σ''.findTask tid = some t'') ∧
    (canTransition t.status s' = false →
      update_task σ tid none none (some s') =
        .error (.invalidTransition t.status s')) := by
  have hf' : σ.tasks.find? (fun u => u.id == tid) = some t := hf
  have hid := List.find?_some hf'
  refine ⟨canTransition_iff _ _, ?_, ?_⟩
  · intro hcan
    refine ⟨applyPatch t none none (some s'), { σ with tasks := σ.tasks.map (fun u => if u.id == tid then applyPatch t none none (some s') else u) }, ?_, ?_, ?_⟩
    · unfold update_task
      simp only [hf]
      simp [hcan]
    · simp [applyPatch]
    · exact find?_replace (fun u => u.id == tid) σ.tasks t _ hf' hid
  · intro hcan
    unfold update_task
    simp only [hf]
    simp [hcan]

/-- C3 witness: requesting Open→Done on the sample store's open task
fails with an InvalidStatusTransition carrying Open and Done. -/
theorem C3_update_status_transitions_witness :
    update_task demoStore 0 none none (some .Done) =
      .error (.invalidTransition .Open .Done) :=
  (C3_update_status_transitions demoStore 0 demoTask .Done (by rfl)).2.2 (by rfl)

/-! ## Claim theorems: partial update semantics -/

/-- C7: in a successful update of an existing task, every absent field
keeps its prior value (absent means leave-as-is, never clear), every
provided field takes the provided value, and the returned task is what
a lookup in the resulting store finds. -/
theorem C7_partial_update_frame (σ : Store) (tid : Nat) (t : Task)
    (title? : Option String) (due? : Option Nat) (status? : Option Status)
    (t' : Task) (σ' : Store)
    (hf : σ.findTask tid = some t)
    (h : update_task σ tid title? due? status? = .ok (t', σ')) :
    (title? = none → t'.title = t.title) ∧
    (due? = none → t'.due_date = t.due_date) ∧
    (status? = none → t'.status = t.status) ∧
    (∀ x, title? = some x → t'.title = x) ∧
    (∀ d, due? = some d → t'.due_date = some d) ∧
    (∀ s, status? = some s → t'.status = s) ∧
    σ'.findTask tid = some t' := by
  have hf' : σ.tasks.find? (fun u => u.id == tid) = some t := hf
  have hid := List.find?_some hf'
  unfold update_task at h
  simp only [hf] at h
  split at h
  · cases h
  · split at h
    · cases h
    · simp only [Except.ok.injEq, Prod.mk.injEq] at h
      obtain ⟨rfl, rfl⟩ := h
      refine ⟨?_, ?_, ?_, ?_, ?_, ?_, ?_⟩
      · intro hn; subst hn; simp [applyPatch]
      · intro hn; subst hn; simp [applyPatch]
      · intro hn; subst hn; simp [applyPatch]
      · intro x hx; subst hx; simp [applyPatch]
      · intro d hd; subst hd; simp [applyPatch]
      · intro s hs; subst hs; simp [applyPatch]
      · exact find?_replace (fun u => u.id == tid) σ.tasks t _ hf' hid

/-- C7 witness: updating only the title of the sample task leaves its
due date and status at their prior values and applies the new title. -/
theorem C7_partial_update_frame_witness :
    (((some "X" : Option String) = none →
        Task.title ⟨0, 0, "X", "doc", some 7, .Open⟩ = demoTask.title) ∧
     ((none : Option Nat) = none →
        Task.due_date ⟨0, 0, "X", "doc", some 7, .Open⟩ = demoTask.due_date) ∧
     ((none : Option Status) = none →
        Task.status ⟨0, 0, "X", "doc", some 7, .Open⟩ = demoTask.status) ∧
     (∀ x, (some "X" : Option String) = some x →
        Task.title ⟨0, 0, "X", "doc", some 7, .Open⟩ = x) ∧
     (∀ d, (none : Option Nat) = some d →
        Task.due_date ⟨0, 0, "X", "doc", some 7, .Open⟩ = some d) ∧
     (∀ s, (none : Option Status) = some s →
        Task.status ⟨0, 0, "X", "doc", some 7, .Open⟩ = s) ∧
     Store.findTask ⟨[⟨0, "Launch"⟩], [⟨0, 0, "X", "doc", some 7, .Open⟩], 1, 1⟩ 0
       = some ⟨0, 0, "X", "doc", some 7, .Open⟩) :=
  C7_partial_update_frame demoStore 0 demoTask (some "X") none none
    ⟨0, 0, "X", "doc", some 7, .Open⟩
    ⟨[⟨0, "Launch"⟩], [⟨0, 0, "X", "doc", some 7, .Open⟩], 1, 1⟩
    (by rfl) (by rfl)

/-! ## Claim theorems: listing and deletion -/

/-- C8: `list_tasks` fails with NotFoundError when the project does not
exist; otherwise it returns exactly the tasks whose `project_id` equals
the argument — a sublist of the store's tasks (hence in insertion
order), containing only matching tasks, and containing every matching
task with its full multiplicity. -/
theorem C8_list_tasks_exact (σ : Store) (pid : Nat) :
    (σ.hasProject pid = false →
      list_tasks σ pid = .error (.notFound "project not found")) ∧
    (σ.hasProject pid = true →
      ∃ l, list_tasks σ pid = .ok l ∧
        l.Sublist σ.tasks ∧
        (∀ t ∈ l, t.project_id = pid) ∧
        (∀ t : Task, t.project_id = pid → l.count t = σ.tasks.count t)) := by
  constructor
  · intro h
    unfold list_tasks
    simp [h]
  · intro h
    refine ⟨σ.tasks.filter (fun t => t.project_id == pid), ?_, ?_, ?_, ?_⟩
    · unfold list_tasks
      simp [h]
    · exact List.filter_sublist _
    · intro t ht
      have hp := (List.mem_filter.mp ht).2
      simpa using hp
    · intro t ht
      exact List.count_filter (by simpa using ht)

/-- C8 witness: listing the sample store's single project returns its
one task, with all the stated properties. -/
theorem C8_list_tasks_exact_witness :
    ∃ l, list_tasks demoStore 0 = .ok l ∧
      l.Sublist demoStore.tasks ∧
      (∀ t ∈ l, t.project_id = 0) ∧
      (∀ t : Task, t.project_id = 0 → l.count t = demoStore.tasks.count t) :=
  (C8_list_tasks_exact demoStore 0).2 (by rfl)

/-- C9: deleting an existing task succeeds and removes exactly that
task (no task with its id remains, every other task survives, nothing
is added); an immediately repeated delete of the same id fails with
NotFoundError, and the failing call leaves the store unchanged. -/
theorem C9_delete_then_delete_again (σ : Store) (tid : Nat) (t : Task)
    (R : List String) (h : σ.findTask tid = some t) :
    ∃ σ', delete_task σ tid = .ok σ' ∧
      (∀ u ∈ σ'.tasks, ¬ u.id = tid) ∧
      (∀ u ∈ σ.tasks, ¬ u.id = tid → u ∈ σ'.tasks) ∧
      (∀ u ∈ σ'.tasks, u ∈ σ.tasks) ∧
      delete_task σ' tid = .error (.notFound "task not found") ∧
      applyOp R σ' (.deleteTask tid) = σ' := by
  refine ⟨{ σ with tasks := σ.tasks.filter (fun u => !(u.id == tid)) },
    ?_, ?_, ?_, ?_, ?_, ?_⟩
  · unfold delete_task
    rw [h]
  · intro u hu
    have := (List.mem_filter.mp hu).2
    simpa using this
  · intro u hu hne
    exact List.mem_filter.mpr ⟨hu, by simpa using hne⟩
  · intro u hu
    exact (List.mem_filter.mp hu).1
  · unfold delete_task
    have hnone : (σ.tasks.filter (fun u => !(u.id == tid))).find?
        (fun u => u.id == tid) = none := by
      rw [List.find?_eq_none]
      intro x hx
      have := (List.mem_filter.mp hx).2
      simpa using this
    unfold Store.findTask
    simp only [hnone]
  · have hnone : Store.findTask
        { σ with tasks := σ.tasks.filter (fun u => !(u.id == tid)) } tid
        = none := by
      unfold Store.findTask
      rw [List.find?_eq_none]
      intro x hx
      have := (List.mem_filter.mp hx).2
      simpa using this
    simp only [applyOp, delete_task, hnone]

/-- C9 witness: deleting the sample store's only task, then deleting the
same id again. -/
theorem C9_delete_then_delete_again_witness :
    ∃ σ', delete_task demoStore 0 = .ok σ' ∧
      (∀ u ∈ σ'.tasks, ¬ u.id = 0) ∧
      (∀ u ∈ demoStore.tasks, ¬ u.id = 0 → u ∈ σ'.tasks) ∧
      (∀ u ∈ σ'.tasks, u ∈ demoStore.tasks) ∧
      delete_task σ' 0 = .error (.notFound "task not found") ∧
      applyOp ["doc"] σ' (.deleteTask 0) = σ' :=
  C9_delete_then_delete_again demoStore 0 demoTask ["doc"] (by rfl)

/-! ## Claim theorems: terminal states are never left -/

/-- Stability only depends on the task list and the id counter. -/
theorem TStable_congr (i : Nat) (v : Status) (σ σ' : Store)
    (h1 : σ'.tasks = σ.tasks) (h2 : σ'.nextTaskId = σ.nextTaskId)
    (h : TStable i v σ) : TStable i v σ' := by
  unfold TStable Store.WF at h ⊢
  rw [h1, h2]
  exact h

/-- Creating a project touches neither the task list nor the task id
counter. -/
theorem applyOp_createProject_frame (R : List String) (σ : Store)
    (name : String) :
    (applyOp R σ (.createProject name)).tasks = σ.tasks ∧
    (applyOp R σ (.createProject name)).nextTaskId = σ.nextTaskId := by
  cases hb : isBlank name <;> simp [applyOp, project_create, hb]

/-- One service operation preserves the stability of a terminal-status
task id. -/
theorem TStable_applyOp (R : List String) (i : Nat) (v : Status)
    (σ : Store) (op : Op) (hv : v.isTerminal = true)
    (h : TStable i v σ) : TStable i v (applyOp R σ op) := by
  obtain ⟨⟨hbound, hnodup⟩, hi, hall⟩ := h
  cases op with
  | listProjects => exact ⟨⟨hbound, hnodup⟩, hi, hall⟩
  | getProject pid => exact ⟨⟨hbound, hnodup⟩, hi, hall⟩
  | listTasks pid => exact ⟨⟨hbound, hnodup⟩, hi, hall⟩
  | createProject name =>
    exact TStable_congr i v σ _ (applyOp_createProject_frame R σ name).1
      (applyOp_createProject_frame R σ name).2 ⟨⟨hbound, hnodup⟩, hi, hall⟩
  | createTask pid title ty due =>
    cases hres : create_task R σ pid title ty due with
    | error e =>
      simp only [applyOp, hres]
      exact ⟨⟨hbound, hnodup⟩, hi, hall⟩
    | ok p =>
      obtain ⟨t0, σ0⟩ := p
      simp only [applyOp, hres]
      unfold create_task at hres
      split at hres
      · cases hres
      · split at hres
        · cases hres
        · split at hres
          · cases hres
          · simp only [Except.ok.injEq, Prod.mk.injEq] at hres
            obtain ⟨rfl, rfl⟩ := hres
            refine ⟨⟨?_, ?_⟩, Nat.lt_succ_of_lt hi, ?_⟩
            · intro u hu
              rcases List.mem_append.mp hu with hu | hu
              · exact Nat.lt_succ_of_lt (hbound u hu)
              · obtain rfl := List.mem_singleton.mp hu
                exact Nat.lt_succ_self _
            · rw [List.map_append]
              refine List.Nodup.append hnodup (List.nodup_singleton _) ?_
              intro a ha hb
              obtain ⟨w, hw, rfl⟩ := List.mem_map.mp ha
              have h1 := hbound w hw
              have h2 : w.id = σ.nextTaskId := by simpa using hb
              omega
            · intro u hu hid2
              rcases List.mem_append.mp hu with hu | hu
              · exact hall u hu hid2
              · obtain rfl := List.mem_singleton.mp hu
                have h3 : σ.nextTaskId = i := hid2
                exfalso
                omega
  | updateTask tid title? due? status? =>
    cases hres : update_task σ tid title? due? status? with
    | error e =>
      simp only [applyOp, hres]
      exact ⟨⟨hbound, hnodup⟩, hi, hall⟩
    | ok p =>
      obtain ⟨t0, σ0⟩ := p
      simp only [applyOp, hres]
      cases hft : σ.findTask tid with
      | none =>
        unfold update_task at hres
        simp only [hft] at hres
        cases hres
      | some t1 =>
        unfold update_task at hres
        simp only [hft] at hres
        have hfind' : σ.tasks.find? (fun u => u.id == tid) = some t1 := hft
        have ht1mem : t1 ∈ σ.tasks := List.mem_of_find?_eq_some hfind'
        have ht1id : t1.id = tid := by simpa using List.find?_some hfind'
        by_cases hb : ((title?.map isBlank).getD false) = true
        · rw [if_pos hb] at hres
          cases hres
        · rw [if_neg hb] at hres
          by_cases hs :
              ((status?.map (fun s => !canTransition t1.status s)).getD false)
                = true
          · rw [if_pos hs] at hres
            cases hres
          · rw [if_neg hs] at hres
            simp only [Except.ok.injEq, Prod.mk.injEq] at hres
            obtain ⟨rfl, rfl⟩ := hres
            refine ⟨⟨?_, ?_⟩, hi, ?_⟩
            · intro u hu
              obtain ⟨w, hw, rfl⟩ := List.mem_map.mp hu
              by_cases hc : (w.id == tid) = true
              · simp only [if_pos hc]
                exact hbound t1 ht1mem
              · simp only [if_neg hc]
                exact hbound w hw
            · have hcomp : Task.id ∘
                  (fun u => if u.id == tid
                    then applyPatch t1 title? due? status? else u) = Task.id := by
                funext w
                simp only [Function.comp]
                by_cases hc : (w.id == tid) = true
                · rw [if_pos hc]
                  have hw' : w.id = tid := by simpa using hc
                  rw [hw']
                  exact ht1id
                · rw [if_neg hc]
              show ((σ.tasks.map _).map Task.id).Nodup
              rw [List.map_map, hcomp]
              exact hnodup
            · intro u hu hid2
              obtain ⟨w, hw, rfl⟩ := List.mem_map.mp hu
              by_cases hc : (w.id == tid) = true
              · simp only [if_pos hc] at hid2 ⊢
                have hti : t1.id = i := hid2
                have ht1v : t1.status = v := hall t1 ht1mem hti
                cases status? with
                | none => simp [applyPatch, ht1v]
                | some s =>
                  exfalso
                  simp at hs
                  rw [ht1v, terminal_no_transition v hv s] at hs
                  cases hs
              · simp only [if_neg hc] at hid2 ⊢
                exact hall w hw hid2
  | deleteTask tid =>
    cases hft : σ.findTask tid with
    | none =>
      have hdel : delete_task σ tid = .error (.notFound "task not found") := by
        unfold delete_task
        simp only [hft]
      simp only [applyOp, hdel]
      exact ⟨⟨hbound, hnodup⟩, hi, hall⟩
    | some t1 =>
      have hdel : delete_task σ tid =
          .ok { σ with tasks := σ.tasks.filter (fun u => !(u.id == tid)) } := by
        unfold delete_task
        simp only [hft]
      simp only [applyOp, hdel]
      refine ⟨⟨?_, ?_⟩, hi, ?_⟩
      · intro u hu
        exact hbound u (List.mem_filter.mp hu).1
      · have hsub : List.Sublist
            ((σ.tasks.filter (fun u => !(u.id == tid))).map Task.id)
            (σ.tasks.map Task.id) :=
          List.Sublist.map _ (List.filter_sublist _)
        exact hsub.nodup hnodup
      · intro u hu hid2
        exact hall u (List.mem_filter.mp hu).1 hid2

/-- Stability of a terminal-status task id is preserved by every
sequence of service operations. -/
theorem TStable_runOps (R : List String) (i : Nat) (v : Status)
    (hv : v.isTerminal = true) (ops : List Op) :
    ∀ σ : Store, TStable i v σ → TStable i v (runOps R σ ops) := by
  induction ops with
  | nil => intro σ h; exact h
  | cons op ops ih =>
    intro σ h
    exact ih (applyOp R σ op) (TStable_applyOp R i v σ op hv h)

/-- C4: starting from any well-formed store, no sequence of service
operations ever moves a task out of a terminal status: any task found
afterwards under the id of a Done or Cancelled task still carries that
same status. -/
theorem C4_terminal_status_never_changes (R : List String) (σ : Store)
    (ops : List Op) (t u : Task)
    (hwf : σ.WF) (ht : t ∈ σ.tasks) (hterm : t.status.isTerminal = true)
    (hu : u ∈ (runOps R σ ops).tasks) (hid : u.id = t.id) :
    u.status = t.status := by
  have hall : ∀ w ∈ σ.tasks, w.id = t.id → w.status = t.status := by
    intro w hw hwid
    have hwt := List.inj_on_of_nodup_map hwf.2 hw ht hwid
    rw [hwt]
  have h0 : TStable t.id t.status σ := ⟨hwf, hwf.1 t ht, hall⟩
  exact (TStable_runOps R t.id t.status hterm ops σ h0).2.2 u hu hid

/-- C4 witness: in a store whose only task is Done, a successful title
update still leaves the status Done. -/
theorem C4_terminal_status_never_changes_witness :
    Task.status ⟨0, 0, "X", "doc", some 7, .Done⟩ =
      Task.status { demoTask with status := Status.Done } :=
  C4_terminal_status_never_changes ["doc"] demoStoreDone
    [.updateTask 0 (some "X") none none]
    { demoTask with status := Status.Done } ⟨0, 0, "X", "doc", some 7, .Done⟩
    (by constructor <;> simp [demoStoreDone, demoTask, Store.WF])
    (by simp [demoStoreDone, demoTask])
    (by rfl)
    (by decide)
    (by rfl)

end PMS
